import Mathlib

/-!
A verification development for the `xf` FreeRTOS adaptation layer.

The embedding models, over plain `Nat`/`List`/`Option` data:
* the kernel queue (`KQueue`): a bounded FIFO of fixed-size slots, together with
  the kernel calls `xQueueGenericSend`, `xQueueReceive`, `xQueuePeek` and their
  ISR variants, in the quiescent (single caller, no concurrent task) setting
  where a full queue rejects a bounded send regardless of timeout;
* the FreeRTOS heap as used by `mem::create`/`mem::destroy` (`Heap`), with an
  allocation-success oracle for the fallible `pvPortMalloc` and explicit logs
  of every allocation and every free;
* `Queue<Item>::generic_send` / `receive` for both storage strategies chosen by
  the `StoredItem` alias: the Inline branch (trivially copyable items stored by
  bitwise copy) and the Boxed branch (items stored behind a fresh heap pointer);
* the task-notification word (`NotifWord`) with the counting view
  (`xTaskNotifyGiveIndexed` / `ulTaskNotifyTakeIndexed` with clear-on-exit) and
  the grouped-state view (`GroupStateNotifier::set_bits` bit packing);
* the duration-to-tick conversion `time::to_raw_tick` over exact rational
  millisecond durations, parameterised by `configTICK_RATE_HZ`.

Machine integers are `Nat` with explicit `% 2 ^ 32` where 32-bit overflow can
occur; fallible operations return `Option` (with `none` at a `.value()` call
modelling the fatal `std::bad_optional_access` abort).
-/

/-- Constant `portMAX_DELAY` for a 32-bit `TickType_t`: the maximum representable tick
count, used both as the infinite-wait sentinel and as the saturation value. -/
def portMAX_DELAY : Nat := 2 ^ 32 - 1

/-- The third argument of `xQueueGenericSend`: back insertion (`queueSEND_TO_BACK`),
front insertion (`queueSEND_TO_FRONT`) or overwrite (`queueOVERWRITE`). -/
inductive CopyPosition where
  | toBack
  | toFront
  | overwrite
deriving DecidableEq

/-- A kernel queue: a bounded buffer of encoded slots with capacity fixed at
creation (`xQueueCreate(length, sizeof(StoredItem))`).  `items` is ordered
front first, so back insertion appends and receive pops the head. -/
structure KQueue (α : Type) where
  capacity : Nat
  items : List α
deriving DecidableEq

/-- Kernel call `xQueueGenericSend` in a quiescent system: with space available the slot is
copied in at the requested position; a full queue rejects a back/front send
once the timeout expires (no other task can make room, so the timeout value
does not affect the outcome); `queueOVERWRITE` (asserted by the kernel to be
used on length-one queues only) replaces the stored content and always
succeeds. -/
def xQueueGenericSend (q : KQueue α) (slot : α) (pos : CopyPosition) (_timeout : Nat) :
    Bool × KQueue α :=
  match pos with
  | .toBack =>
    if q.items.length < q.capacity then (true, ⟨q.capacity, q.items ++ [slot]⟩) else (false, q)
  | .toFront =>
    if q.items.length < q.capacity then (true, ⟨q.capacity, slot :: q.items⟩) else (false, q)
  | .overwrite => (true, ⟨q.capacity, [slot]⟩)

/-- Kernel call `xQueueReceive` in a quiescent system: pops the front slot, or reports
failure on an empty queue once the timeout expires. -/
def xQueueReceive (q : KQueue α) (_timeout : Nat) : Option α × KQueue α :=
  match q.items with
  | [] => (none, q)
  | x :: rest => (some x, ⟨q.capacity, rest⟩)

/-- Kernel call `xQueuePeek` in a quiescent system: reads the front slot without popping
it, or reports failure on an empty queue once the timeout expires. -/
def xQueuePeek (q : KQueue α) (_timeout : Nat) : Option α × KQueue α :=
  match q.items with
  | [] => (none, q)
  | x :: _ => (some x, q)

/-- The FreeRTOS heap as observed through `mem::create`/`mem::destroy`:
`store` holds the live allocations (address paired with the constructed
object), `nextAddr` is the next fresh address, and `allocLog`/`freeLog`
record every allocation and deallocation ever performed, in order. -/
structure Heap (Item : Type) where
  nextAddr : Nat
  store : List (Nat × Item)
  allocLog : List Nat
  freeLog : List Nat
deriving DecidableEq

/-- Function `mem::create<T>(args...)`: allocates storage on the FreeRTOS heap and
constructs the object in place, or returns `nullptr` on allocation failure
leaving the heap untouched.  `allocOk` is the success oracle for the
underlying `pvPortMalloc` call. -/
def mem.create (h : Heap Item) (allocOk : Bool) (x : Item) : Option Nat × Heap Item :=
  if allocOk then
    (some h.nextAddr,
      ⟨h.nextAddr + 1, h.store ++ [(h.nextAddr, x)], h.allocLog ++ [h.nextAddr], h.freeLog⟩)
  else
    (none, h)

/-- Function `mem::destroy(ptr)`: runs the destructor and frees the allocation.  The
(first) live allocation at `p` is removed from the store and the free is
logged. -/
def mem.destroy (h : Heap Item) (p : Nat) : Heap Item :=
  ⟨h.nextAddr, h.store.eraseP (fun e => e.1 == p), h.allocLog, h.freeLog ++ [p]⟩

/-- Dereferencing a stored pointer (`*stored_item`): yields the pointee when
the address is a live allocation, `none` when it dangles. -/
def Heap.deref (h : Heap Item) (p : Nat) : Option Item :=
  h.store.lookup p

/-- The state of a task-context `Queue<Item>` for a non-trivially-copyable
(Boxed) `Item`: the kernel queue stores pointer-sized slots (addresses into
the heap) and the heap holds the items themselves. -/
structure BoxedQueue (Item : Type) where
  q : KQueue Nat
  heap : Heap Item
deriving DecidableEq

/-- Method `Queue<Item>::generic_send` for trivially copyable `Item`
(`StoredItem = Item`): a single kernel send whose slot bytes are the item's
bytes. -/
def Queue.generic_send_inline (q : KQueue Item) (item : Item) (pos : CopyPosition)
    (timeout : Nat) : Bool × KQueue Item :=
  xQueueGenericSend q item pos timeout

/-- Methods `Queue<Item>::send` / `send_to_back` for trivially copyable `Item`:
delegates to `generic_send` with `queueSEND_TO_BACK`. -/
def Queue.send_inline (q : KQueue Item) (item : Item) (timeout : Nat) : Bool × KQueue Item :=
  Queue.generic_send_inline q item .toBack timeout

/-- Method `Queue<Item>::send_to_front` for trivially copyable `Item`: delegates to
`generic_send` with `queueSEND_TO_FRONT`. -/
def Queue.send_to_front_inline (q : KQueue Item) (item : Item) (timeout : Nat) :
    Bool × KQueue Item :=
  Queue.generic_send_inline q item .toFront timeout

/-- Method `Queue<Item>::receive` for trivially copyable `Item`: the kernel copies
the slot bytes out and they are returned directly. -/
def Queue.receive_inline (q : KQueue Item) (timeout : Nat) : Option Item × KQueue Item :=
  xQueueReceive q timeout

/-- Method `Queue<Item>::peek` for trivially copyable `Item`. -/
def Queue.peek_inline (q : KQueue Item) (timeout : Nat) : Option Item × KQueue Item :=
  xQueuePeek q timeout

/-- Method `Queue<Item>::generic_send` for a Boxed `Item`: `mem::create` a heap copy
(failure is reported with nothing placed in the kernel buffer), send the
resulting address; if the kernel rejects the send, `mem::destroy` the
allocation before returning failure. -/
def Queue.generic_send_boxed (s : BoxedQueue Item) (allocOk : Bool) (item : Item)
    (pos : CopyPosition) (timeout : Nat) : Bool × BoxedQueue Item :=
  match mem.create s.heap allocOk item with
  | (none, h) => (false, ⟨s.q, h⟩)
  | (some addr, h) =>
    match xQueueGenericSend s.q addr pos timeout with
    | (true, q') => (true, ⟨q', h⟩)
    | (false, q') => (false, ⟨q', mem.destroy h addr⟩)

/-- Method `Queue<Item>::receive` for a Boxed `Item`: the kernel copies the address
out, the pointee is moved into the result and the allocation is destroyed.
The outer `Option` is the kernel's success; the inner `Option` is the
dereference of the stored pointer (`none` would be a dangling pointer). -/
def Queue.receive_boxed (s : BoxedQueue Item) (timeout : Nat) :
    Option (Option Item) × BoxedQueue Item :=
  match xQueueReceive s.q timeout with
  | (none, q') => (none, ⟨q', s.heap⟩)
  | (some addr, q') => (some (s.heap.deref addr), ⟨q', mem.destroy s.heap addr⟩)

/-- A sequence of back-insertion sends of the given items (each send's success
flag is collected), as performed by repeated `Queue::send` calls on a Boxed
queue with every heap allocation succeeding. -/
def Queue.sendAll (s : BoxedQueue Item) : List Item → List Bool × BoxedQueue Item
  | [] => ([], s)
  | x :: xs =>
    match Queue.generic_send_boxed s true x .toBack 0 with
    | (b, s') =>
      match Queue.sendAll s' xs with
      | (bs, s'') => (b :: bs, s'')

/-- Performs `n` consecutive `Queue::receive` calls on a Boxed queue, collecting each
result. -/
def Queue.recvN (s : BoxedQueue Item) : Nat → List (Option (Option Item)) × BoxedQueue Item
  | 0 => ([], s)
  | n + 1 =>
    match Queue.receive_boxed s 0 with
    | (r, s') =>
      match Queue.recvN s' n with
      | (rs, s'') => (r :: rs, s'')

/-- Method `Queue<Item>::await_send` (Boxed `Item`): `(void)send(item, time::FOREVER)` —
the try form at the infinite timeout with its success flag discarded. -/
def Queue.await_send_boxed (s : BoxedQueue Item) (allocOk : Bool) (item : Item) :
    BoxedQueue Item :=
  (Queue.generic_send_boxed s allocOk item .toBack portMAX_DELAY).2

/-- Method `Queue<Item>::await_send` (Inline `Item`): `(void)send(item, time::FOREVER)`. -/
def Queue.await_send_inline (q : KQueue Item) (item : Item) : KQueue Item :=
  (Queue.send_inline q item portMAX_DELAY).2

/-- Method `Queue<Item>::await_send_to_front` (Inline `Item`):
`(void)send_to_front(item, time::FOREVER)`. -/
def Queue.await_send_to_front_inline (q : KQueue Item) (item : Item) : KQueue Item :=
  (Queue.send_to_front_inline q item portMAX_DELAY).2

/-- Method `Queue<Item>::await_receive` (Inline `Item`):
`receive(time::FOREVER).value()` — `none` models the fatal
`std::bad_optional_access` abort when the infinite wait fails. -/
def Queue.await_receive_inline (q : KQueue Item) : Option (Item × KQueue Item) :=
  match Queue.receive_inline q portMAX_DELAY with
  | (some x, q') => some (x, q')
  | (none, _) => none

/-- Method `Queue<Item>::await_peek` (Inline `Item`): `peek(time::FOREVER).value()`. -/
def Queue.await_peek_inline (q : KQueue Item) : Option (Item × KQueue Item) :=
  match Queue.peek_inline q portMAX_DELAY with
  | (some x, q') => some (x, q')
  | (none, _) => none

/-- Kernel call `xQueueGenericSendFromISR`: never blocks; a back/front send succeeds only
with space available, `queueOVERWRITE` always succeeds.  On success the
kernel reports through `*pxHigherPriorityTaskWoken` whether a
higher-priority task was unblocked; `woken` is that kernel-determined flag. -/
def xQueueGenericSendFromISR (q : KQueue α) (slot : α) (pos : CopyPosition) (woken : Bool) :
    Option (Bool × KQueue α) :=
  match pos with
  | .toBack =>
    if q.items.length < q.capacity then some (woken, ⟨q.capacity, q.items ++ [slot]⟩) else none
  | .toFront =>
    if q.items.length < q.capacity then some (woken, ⟨q.capacity, slot :: q.items⟩) else none
  | .overwrite => some (woken, ⟨q.capacity, [slot]⟩)

/-- Method `isr::Queue<Item>::generic_send`: returns `std::nullopt` when the kernel
send fails, otherwise the Wake Flag the kernel reported. -/
def isr.Queue.generic_send (q : KQueue Item) (item : Item) (pos : CopyPosition)
    (woken : Bool) : Option (Bool × KQueue Item) :=
  xQueueGenericSendFromISR q item pos woken

/-- Method `isr::Queue<Item>::overwrite`: `generic_send(item, queueOVERWRITE).value()`.
The result is the `Option` whose `none` case would be the fatal `.value()`
extraction on an empty optional. -/
def isr.Queue.overwrite (q : KQueue Item) (item : Item) (woken : Bool) :
    Option (Bool × KQueue Item) :=
  isr.Queue.generic_send q item .overwrite woken

/-- One task-notification slot: the 32-bit notification word and the
kernel-maintained pending flag (`ucNotifyState == taskNOTIFICATION_RECEIVED`). -/
structure NotifWord where
  value : Nat
  pending : Bool
deriving DecidableEq

/-- Kernel call `xTaskNotifyGiveIndexed` (the `eIncrement` action): increments the 32-bit
word and marks the slot pending. -/
def CountingNotif.give (n : NotifWord) : NotifWord :=
  ⟨(n.value + 1) % 2 ^ 32, true⟩

/-- Method `CountingNotification::take(timeout)`:
`ulTaskNotifyTakeIndexed(_index, pdTRUE, to_raw_tick(timeout))`.  The kernel
call waits (up to the timeout) for the word to be non-zero and, because
`xClearCountOnExit` is `pdTRUE`, resets the word to zero on exit, returning
the pre-clear value; the wrapper maps a zero return (timeout) to
`std::nullopt`.  In the quiescent setting a zero word stays zero, so the wait
times out. -/
def CountingNotif.take (n : NotifWord) (_timeout : Nat) : Option Nat × NotifWord :=
  if n.value = 0 then
    (none, ⟨n.value, false⟩)
  else
    (some n.value, ⟨0, false⟩)

/-- Method `CountingNotification::await_take()`: `take(time::FOREVER).value()`. -/
def CountingNotif.await_take (n : NotifWord) : Option Nat × NotifWord :=
  CountingNotif.take n portMAX_DELAY

/-- Helper `GroupStateNotifier::set_bits(destination, source, at, num_bits)`: uint32
arithmetic replacing the `num_bits` bits of `destination` at offset `at'`
with the low bits of `source`:
`mask = (UINT32_MAX >> (32 - num_bits)) << at;`
`return (destination & ~mask) | ((source << at) & mask);`. -/
def GroupStateNotifier.set_bits (destination source at' num_bits : Nat) : Nat :=
  let mask := ((2 ^ 32 - 1) >>> (32 - num_bits)) <<< at'
  (destination &&& ((2 ^ 32 - 1) ^^^ mask)) ||| ((source <<< at') &&& mask)

/-- Kernel call `ulTaskNotifyValueClearIndexed(handle, index, bitsToClear)`: returns the
word's current value and clears the given bits (the pending flag is not
touched). -/
def ulTaskNotifyValueClear (n : NotifWord) (bitsToClear : Nat) : Nat × NotifWord :=
  (n.value, ⟨n.value &&& ((2 ^ 32 - 1) ^^^ bitsToClear), n.pending⟩)

/-- Kernel call `xTaskNotifyIndexed(handle, index, value, eSetValueWithOverwrite)`:
overwrites the whole word and marks the slot pending. -/
def xTaskNotifySetValueWithOverwrite (_n : NotifWord) (v : Nat) : NotifWord :=
  ⟨v, true⟩

/-- Method `GroupStateNotifier::set(group, state)` with `BITS_PER_GROUP = B`: read
the current word with `ulTaskNotifyValueClearIndexed(handle, index, 0)`,
replace the group's bits with `set_bits`, and write the whole word back with
`eSetValueWithOverwrite`. -/
def GroupStateNotifier.set (B group raw_state : Nat) (n : NotifWord) : NotifWord :=
  let r := ulTaskNotifyValueClear n 0
  xTaskNotifySetValueWithOverwrite r.2 (GroupStateNotifier.set_bits r.1 raw_state (group * B) B)

/-- The word-building loop of `GroupStateNotifier::set(states)` (the
all-groups form): starting from `raw_value = 0`, each group's bits are
installed at offset `i * BITS_PER_GROUP` with `set_bits`; `off` is the
running offset. -/
def GroupStateNotifier.pack (B : Nat) : List Nat → Nat → Nat → Nat
  | [], _, raw => raw
  | s :: rest, off, raw => GroupStateNotifier.pack B rest (off + B) (GroupStateNotifier.set_bits raw s off B)

/-- Method `GroupStateNotifier::set(states)` (the all-groups form): build the whole
word in one pass, then perform a single overwriting write. -/
def GroupStateNotifier.set_all (B : Nat) (states : List Nat) (n : NotifWord) : NotifWord :=
  xTaskNotifySetValueWithOverwrite n (GroupStateNotifier.pack B states 0 0)

/-- Helper `GroupStateNotifier::raw_value_to_state_list(raw_value)`: decode each
group as `(raw_value >> (i * BITS_PER_GROUP)) & ((1 << BITS_PER_GROUP) - 1)`. -/
def GroupStateNotifier.raw_value_to_state_list (B G raw : Nat) : List Nat :=
  (List.range G).map (fun i => (raw >>> (i * B)) &&& ((1 <<< B) - 1))

/-- Exact value of `time::FOREVER`, expressed in milliseconds:
`portMAX_DELAY` ticks at `tickRate` ticks per second. -/
def time.foreverMs (tickRate : Nat) : ℚ :=
  ((portMAX_DELAY : ℚ) * 1000) / (tickRate : ℚ)

/-- Conversion `std::chrono::round<Milliseconds>`: round an exact duration (in
milliseconds) to the nearest integer, ties to even. -/
def time.roundHalfEven (q : ℚ) : ℤ :=
  if q - (⌊q⌋ : ℚ) < 1 / 2 then ⌊q⌋
  else if (1 : ℚ) / 2 < q - (⌊q⌋ : ℚ) then ⌊q⌋ + 1
  else if ⌊q⌋ % 2 = 0 then ⌊q⌋ else ⌊q⌋ + 1

/-- Macro `pdMS_TO_TICKS(xTimeInMs)` = `(TickType_t)(((uint64_t)(xTimeInMs) *
configTICK_RATE_HZ) / 1000)`: exact 64-bit arithmetic truncated to the 32-bit
`TickType_t`. -/
def pdMS_TO_TICKS (tickRate ms : Nat) : Nat :=
  ms * tickRate / 1000 % 2 ^ 32

/-- Function `time::to_raw_tick(duration)` (the generic overload): durations at least
`time::FOREVER` yield `portMAX_DELAY`; otherwise the duration is rounded to a
`Milliseconds` (whose representation is the 32-bit `TickType_t`, hence the
`% 2 ^ 32` of the integral conversion) and passed to `pdMS_TO_TICKS`.  The
input is the exact duration in milliseconds; the function is pure and total. -/
def time.to_raw_tick (tickRate : Nat) (d : ℚ) : Nat :=
  if time.foreverMs tickRate ≤ d then portMAX_DELAY
  else pdMS_TO_TICKS tickRate ((time.roundHalfEven d % (2 ^ 32 : ℤ)).toNat)

/-- C2: for every Inline (trivially-copyable) item type and every value `x`,
`send(x)` followed by `receive()` on an otherwise-empty capacity-1 created
channel succeeds and returns a value equal to `x`; the stored slot is exactly
the item, copied in and back out. -/
theorem inline_send_receive_roundtrip (Item : Type) (x : Item) :
    Queue.generic_send_inline (⟨1, []⟩ : KQueue Item) x .toBack 0 = (true, ⟨1, [x]⟩) ∧
    Queue.receive_inline (Queue.generic_send_inline (⟨1, []⟩ : KQueue Item) x .toBack 0).2
      portMAX_DELAY = (some x, ⟨1, []⟩) :=
  ⟨rfl, rfl⟩

/-- C3: for every Boxed item type, when the heap allocation made while sending
fails, `generic_send` returns failure and both the kernel queue (contents and
occupancy) and the heap are left completely unchanged. -/
theorem boxed_send_alloc_failure (Item : Type) (s : BoxedQueue Item) (x : Item)
    (pos : CopyPosition) (t : Nat) :
    Queue.generic_send_boxed s false x pos t = (false, s) :=
  rfl

/-- C4 counterexample: after three `give()` calls on an initially-zero
counter, `await_take()` returns 3 but leaves the counter at 0, not at
`3 - 1 = 2`: the code clears the word (`xClearCountOnExit = pdTRUE`) instead
of decrementing it, refuting the claim that `take` "atomically decrements the
counter". -/
theorem counting_take_clears_not_decrements :
    (CountingNotif.await_take
      (CountingNotif.give (CountingNotif.give (CountingNotif.give ⟨0, false⟩)))).1 = some 3 ∧
    (CountingNotif.await_take
      (CountingNotif.give (CountingNotif.give (CountingNotif.give ⟨0, false⟩)))).2.value = 0 ∧
    (CountingNotif.await_take
      (CountingNotif.give (CountingNotif.give (CountingNotif.give ⟨0, false⟩)))).2.value ≠
      3 - 1 := by
  refine ⟨rfl, rfl, ?_⟩
  decide

/-- C4 amended: `take()`/`await_take()` waits until the counter is non-zero
and then atomically clears it to zero, returning the pre-clear value; when
the counter is zero the wait times out and nothing is returned.  In
particular after exactly three `give()` calls on an initially-zero counter,
`await_take()` returns 3 and a subsequent `take()` finds nothing pending. -/
theorem counting_take_spec (n : NotifWord) (t : Nat) (h : n.value ≠ 0) :
    CountingNotif.take n t = (some n.value, ⟨0, false⟩) ∧
    (CountingNotif.take ⟨0, n.pending⟩ t).1 = none ∧
    CountingNotif.await_take
      (CountingNotif.give (CountingNotif.give (CountingNotif.give ⟨0, false⟩))) =
      (some 3, ⟨0, false⟩) ∧
    (CountingNotif.take
      (CountingNotif.await_take
        (CountingNotif.give (CountingNotif.give (CountingNotif.give ⟨0, false⟩)))).2 t).1 =
      none := by
  refine ⟨?_, rfl, by decide, rfl⟩
  simp [CountingNotif.take, h]

/-- Witness for `counting_take_spec` at the concrete slot `⟨3, true⟩`. -/
theorem counting_take_spec_witness :
    (⟨3, true⟩ : NotifWord).value ≠ 0 ∧
    (CountingNotif.take ⟨3, true⟩ 7 = (some 3, ⟨0, false⟩) ∧
      (CountingNotif.take ⟨0, (⟨3, true⟩ : NotifWord).pending⟩ 7).1 = none ∧
      CountingNotif.await_take
        (CountingNotif.give (CountingNotif.give (CountingNotif.give ⟨0, false⟩))) =
        (some 3, ⟨0, false⟩) ∧
      (CountingNotif.take
        (CountingNotif.await_take
          (CountingNotif.give (CountingNotif.give (CountingNotif.give ⟨0, false⟩)))).2 7).1 =
        none) :=
  ⟨by decide, counting_take_spec ⟨3, true⟩ 7 (by decide)⟩

/-- C8 counterexample: on a Boxed channel, a heap-allocation failure makes
`send(item, time::FOREVER)` fail, yet `await_send` — which is
`(void)send(item, time::FOREVER)` — returns normally with the state
untouched: the failure is silently discarded, not turned into a fatal
assertion as the claim states. -/
theorem await_send_discards_failure :
    (Queue.generic_send_boxed (⟨⟨1, []⟩, ⟨0, [], [], []⟩⟩ : BoxedQueue Nat) false 7 .toBack
      portMAX_DELAY).1 = false ∧
    Queue.await_send_boxed (⟨⟨1, []⟩, ⟨0, [], [], []⟩⟩ : BoxedQueue Nat) false 7 =
      ⟨⟨1, []⟩, ⟨0, [], [], []⟩⟩ :=
  ⟨rfl, rfl⟩

/-- C8 amended: every `await_*` form calls the try form with the forever
timeout.  For `receive` and `peek` a failure of the infinite wait is a fatal
error (`.value()` on an empty optional); for the send family
(`await_send`, `await_send_to_back = await_send`, `await_send_to_front`) the
try form's success flag is discarded, so a failure — including Boxed
allocation failure — is silently ignored, not asserted. -/
theorem await_forms_match_try_forms (Item : Type) (q : KQueue Item) (s : BoxedQueue Item)
    (allocOk : Bool) (x y : Item) :
    Queue.await_send_inline q x = (Queue.send_inline q x portMAX_DELAY).2 ∧
    Queue.await_send_to_front_inline q x = (Queue.send_to_front_inline q x portMAX_DELAY).2 ∧
    Queue.await_send_boxed s allocOk y =
      (Queue.generic_send_boxed s allocOk y .toBack portMAX_DELAY).2 ∧
    Queue.await_receive_inline q =
      (Queue.receive_inline q portMAX_DELAY).1.map
        (fun z => (z, (Queue.receive_inline q portMAX_DELAY).2)) ∧
    Queue.await_peek_inline q =
      (Queue.peek_inline q portMAX_DELAY).1.map
        (fun z => (z, (Queue.peek_inline q portMAX_DELAY).2)) := by
  obtain ⟨cap, items⟩ := q
  cases items <;> exact ⟨rfl, rfl, rfl, rfl, rfl⟩

/-- C9: `isr::Queue::overwrite` on a created capacity-1 channel never fails:
the kernel overwrite-send always succeeds, so the `std::nullopt` branch (and
the `.value()` extraction on it) is unreachable and the call returns exactly
the Wake Flag reported by the kernel. -/
theorem isr_overwrite_infallible (Item : Type) (q : KQueue Item) (x : Item) (woken : Bool)
    (hcap : q.capacity = 1) :
    isr.Queue.overwrite q x woken = some (woken, ⟨1, [x]⟩) := by
  rw [← hcap]
  rfl

/-- Witness for `isr_overwrite_infallible` on a full capacity-1 queue. -/
theorem isr_overwrite_infallible_witness :
    (⟨1, [5]⟩ : KQueue Nat).capacity = 1 ∧
    isr.Queue.overwrite (⟨1, [5]⟩ : KQueue Nat) 9 true = some (true, ⟨1, [9]⟩) :=
  ⟨rfl, isr_overwrite_infallible Nat ⟨1, [5]⟩ 9 true rfl⟩

/-- C10: for a Boxed item, when the kernel rejects the enqueue (queue full and
the timeout expires on a back or front send), the heap allocation created for
the outgoing item is destroyed before `generic_send` returns failure: the
queue is unchanged, the live allocations are unchanged, and the one new
allocation is matched by one new free. -/
theorem boxed_send_kernel_reject_cleanup (Item : Type) (s : BoxedQueue Item) (x : Item)
    (pos : CopyPosition) (t : Nat)
    (hfull : s.q.capacity ≤ s.q.items.length) (hpos : pos ≠ CopyPosition.overwrite)
    (hfresh : ∀ e ∈ s.heap.store, e.1 ≠ s.heap.nextAddr) :
    Queue.generic_send_boxed s true x pos t =
      (false, ⟨s.q, ⟨s.heap.nextAddr + 1, s.heap.store,
        s.heap.allocLog ++ [s.heap.nextAddr], s.heap.freeLog ++ [s.heap.nextAddr]⟩⟩) := by
  have hnotlt : ¬ s.q.items.length < s.q.capacity := Nat.not_lt.2 hfull
  have herase : (s.heap.store ++ [(s.heap.nextAddr, x)]).eraseP
      (fun e => e.1 == s.heap.nextAddr) = s.heap.store := by
    rw [List.eraseP_append_right _ (fun b hb => by simpa using hfresh b hb)]
    simp
  cases pos with
  | overwrite => exact absurd rfl hpos
  | toBack =>
    simp [Queue.generic_send_boxed, mem.create, xQueueGenericSend, hnotlt, mem.destroy, herase]
  | toFront =>
    simp [Queue.generic_send_boxed, mem.create, xQueueGenericSend, hnotlt, mem.destroy, herase]

/-- Witness for `boxed_send_kernel_reject_cleanup` on a concrete full
capacity-1 Boxed queue. -/
theorem boxed_send_kernel_reject_cleanup_witness :
    ((⟨⟨1, [0]⟩, ⟨1, [(0, 42)], [0], []⟩⟩ : BoxedQueue Nat).q.capacity ≤
        (⟨⟨1, [0]⟩, ⟨1, [(0, 42)], [0], []⟩⟩ : BoxedQueue Nat).q.items.length) ∧
    (CopyPosition.toBack ≠ CopyPosition.overwrite) ∧
    Queue.generic_send_boxed (⟨⟨1, [0]⟩, ⟨1, [(0, 42)], [0], []⟩⟩ : BoxedQueue Nat) true 7
      .toBack 0 = (false, ⟨⟨1, [0]⟩, ⟨2, [(0, 42)], [0, 1], [1]⟩⟩) :=
  ⟨by decide, by decide,
    boxed_send_kernel_reject_cleanup Nat ⟨⟨1, [0]⟩, ⟨1, [(0, 42)], [0], []⟩⟩ 7 .toBack 0
      (by decide) (by decide) (by decide)⟩

/-- C5: the duration-to-tick conversion behind every timeout parameter is a
pure total function (a `def` over exact durations, for every tick rate) that
maps the zero duration to zero ticks, maps the forever sentinel to
`portMAX_DELAY`, and saturates to `portMAX_DELAY` instead of overflowing for
every duration at least as long as the maximum representable tick count. -/
theorem to_raw_tick_spec (tickRate : Nat) (d : ℚ) (htr : 0 < tickRate)
    (hd : time.foreverMs tickRate ≤ d) :
    time.to_raw_tick tickRate 0 = 0 ∧
    time.to_raw_tick tickRate (time.foreverMs tickRate) = portMAX_DELAY ∧
    time.to_raw_tick tickRate d = portMAX_DELAY := by
  have hpos : 0 < time.foreverMs tickRate := by
    unfold time.foreverMs
    apply div_pos
    · have : 0 < portMAX_DELAY := by norm_num [portMAX_DELAY]
      positivity
    · exact_mod_cast htr
  refine ⟨?_, ?_, ?_⟩
  · rw [time.to_raw_tick, if_neg (not_le.2 hpos)]
    have h0 : time.roundHalfEven 0 = 0 := by
      unfold time.roundHalfEven
      norm_num
    rw [h0]
    simp [pdMS_TO_TICKS]
  · rw [time.to_raw_tick, if_pos le_rfl]
  · rw [time.to_raw_tick, if_pos hd]

/-- Witness for `to_raw_tick_spec` at a 1000 Hz tick rate and a duration of
`10 ^ 10` milliseconds. -/
theorem to_raw_tick_spec_witness :
    0 < 1000 ∧ time.foreverMs 1000 ≤ (10 ^ 10 : ℚ) ∧
    (time.to_raw_tick 1000 0 = 0 ∧
      time.to_raw_tick 1000 (time.foreverMs 1000) = portMAX_DELAY ∧
      time.to_raw_tick 1000 (10 ^ 10 : ℚ) = portMAX_DELAY) :=
  ⟨by norm_num, by norm_num [time.foreverMs, portMAX_DELAY],
    to_raw_tick_spec 1000 (10 ^ 10 : ℚ) (by norm_num)
      (by norm_num [time.foreverMs, portMAX_DELAY])⟩

/-- Effect of `N` consecutive successful Boxed sends: every send succeeds,
the kernel queue gains the `N` freshly allocated addresses in FIFO order, and
the heap gains exactly those `N` live allocations and `N` entries in the
allocation log (the free log is untouched). -/
theorem Queue.sendAll_spec (Item : Type) :
    ∀ (xs : List Item) (s : BoxedQueue Item),
      s.q.items.length + xs.length ≤ s.q.capacity →
      Queue.sendAll s xs =
        (List.replicate xs.length true,
          ⟨⟨s.q.capacity, s.q.items ++ List.range' s.heap.nextAddr xs.length⟩,
            ⟨s.heap.nextAddr + xs.length,
              s.heap.store ++ (List.range' s.heap.nextAddr xs.length).zip xs,
              s.heap.allocLog ++ List.range' s.heap.nextAddr xs.length,
              s.heap.freeLog⟩⟩) := by
  intro xs
  induction xs with
  | nil =>
    intro s _
    simp [Queue.sendAll]
  | cons x xs ih =>
    intro s h
    obtain ⟨⟨cap, items⟩, na, store, aLog, fLog⟩ := s
    simp only [List.length_cons] at h
    have hlt : items.length < cap := by omega
    have hsend : Queue.generic_send_boxed (⟨⟨cap, items⟩, na, store, aLog, fLog⟩ :
        BoxedQueue Item) true x .toBack 0 =
        (true, ⟨⟨cap, items ++ [na]⟩, na + 1, store ++ [(na, x)], aLog ++ [na], fLog⟩) := by
      simp [Queue.generic_send_boxed, mem.create, xQueueGenericSend, hlt]
    have hih := ih ⟨⟨cap, items ++ [na]⟩, na + 1, store ++ [(na, x)], aLog ++ [na], fLog⟩
      (by simp; omega)
    rw [Queue.sendAll, hsend]
    simp only [hih]
    simp [List.range'_succ, List.replicate_succ, Nat.add_assoc, Nat.add_comm,
      Nat.add_left_comm]

/-- Effect of receiving every element of a Boxed queue whose live heap
allocations are exactly its queued addresses: every receive succeeds and
yields the matching item, the queue and the live-allocation store drain to
empty, and each queued address is freed exactly once, in order. -/
theorem Queue.recvN_spec (Item : Type) :
    ∀ (addrs : List Nat) (vals : List Item) (cap na : Nat) (aLog fLog : List Nat),
      addrs.length = vals.length →
      Queue.recvN (⟨⟨cap, addrs⟩, na, addrs.zip vals, aLog, fLog⟩ : BoxedQueue Item)
        addrs.length =
        (vals.map (fun v => some (some v)), ⟨⟨cap, []⟩, na, [], aLog, fLog ++ addrs⟩) := by
  intro addrs
  induction addrs with
  | nil =>
    intro vals cap na aLog fLog h
    obtain rfl : vals = [] := List.eq_nil_of_length_eq_zero h.symm
    simp [Queue.recvN]
  | cons a addrs ih =>
    intro vals cap na aLog fLog h
    cases vals with
    | nil => simp at h
    | cons v vals =>
      simp only [List.length_cons, Nat.succ.injEq] at h
      have hrecv : Queue.receive_boxed (⟨⟨cap, a :: addrs⟩, na,
          (a :: addrs).zip (v :: vals), aLog, fLog⟩ : BoxedQueue Item) 0 =
          (some (some v), ⟨⟨cap, addrs⟩, na, addrs.zip vals, aLog, fLog ++ [a]⟩) := by
        simp [Queue.receive_boxed, xQueueReceive, Heap.deref, mem.destroy]
      have hih := ih vals cap na aLog (fLog ++ [a]) h
      show Queue.recvN _ (addrs.length + 1) = _
      rw [Queue.recvN, hrecv]
      simp only [hih]
      simp

/-- C1: for every Boxed item type, `N` successful sends followed by `N`
successful receives on a freshly created channel (capacity at least `N`, all
allocations succeeding) perform exactly `N` heap allocations and exactly `N`
frees; the free log equals the allocation log (each sent item is freed by
exactly one successful receive — no double free), every receive returns the
matching sent item, and no live allocation remains afterwards. -/
theorem boxed_n_sends_n_receives (Item : Type) (xs : List Item) (cap : Nat)
    (hcap : xs.length ≤ cap) :
    (Queue.sendAll (⟨⟨cap, []⟩, 0, [], [], []⟩ : BoxedQueue Item) xs).1 =
      List.replicate xs.length true ∧
    (Queue.recvN (Queue.sendAll (⟨⟨cap, []⟩, 0, [], [], []⟩ : BoxedQueue Item) xs).2
        xs.length).1 = xs.map (fun x => some (some x)) ∧
    (Queue.recvN (Queue.sendAll (⟨⟨cap, []⟩, 0, [], [], []⟩ : BoxedQueue Item) xs).2
        xs.length).2.heap.allocLog = List.range xs.length ∧
    (Queue.recvN (Queue.sendAll (⟨⟨cap, []⟩, 0, [], [], []⟩ : BoxedQueue Item) xs).2
        xs.length).2.heap.freeLog = List.range xs.length ∧
    (Queue.recvN (Queue.sendAll (⟨⟨cap, []⟩, 0, [], [], []⟩ : BoxedQueue Item) xs).2
        xs.length).2.heap.store = [] ∧
    (Queue.recvN (Queue.sendAll (⟨⟨cap, []⟩, 0, [], [], []⟩ : BoxedQueue Item) xs).2
        xs.length).2.q.items = [] := by
  have hsend := Queue.sendAll_spec Item xs ⟨⟨cap, []⟩, 0, [], [], []⟩ (by simpa using hcap)
  have hlen : (List.range' 0 xs.length).length = xs.length := List.length_range' 0 1 xs.length
  have hrecv := Queue.recvN_spec Item (List.range' 0 xs.length) xs cap xs.length
    (List.range' 0 xs.length) [] (by rw [hlen])
  rw [hsend]
  simp only [List.nil_append, Nat.zero_add]
  rw [show (List.range' 0 xs.length).length = xs.length from hlen] at hrecv
  rw [hrecv]
  simp [List.range_eq_range']

/-- Witness for `boxed_n_sends_n_receives` with two items on a capacity-2
channel. -/
theorem boxed_n_sends_n_receives_witness :
    ([10, 20] : List Nat).length ≤ 2 ∧
    ((Queue.sendAll (⟨⟨2, []⟩, 0, [], [], []⟩ : BoxedQueue Nat) [10, 20]).1 =
        List.replicate ([10, 20] : List Nat).length true ∧
      (Queue.recvN (Queue.sendAll (⟨⟨2, []⟩, 0, [], [], []⟩ : BoxedQueue Nat) [10, 20]).2
          ([10, 20] : List Nat).length).1 = [10, 20].map (fun x => some (some x)) ∧
      (Queue.recvN (Queue.sendAll (⟨⟨2, []⟩, 0, [], [], []⟩ : BoxedQueue Nat) [10, 20]).2
          ([10, 20] : List Nat).length).2.heap.allocLog =
        List.range ([10, 20] : List Nat).length ∧
      (Queue.recvN (Queue.sendAll (⟨⟨2, []⟩, 0, [], [], []⟩ : BoxedQueue Nat) [10, 20]).2
          ([10, 20] : List Nat).length).2.heap.freeLog =
        List.range ([10, 20] : List Nat).length ∧
      (Queue.recvN (Queue.sendAll (⟨⟨2, []⟩, 0, [], [], []⟩ : BoxedQueue Nat) [10, 20]).2
          ([10, 20] : List Nat).length).2.heap.store = [] ∧
      (Queue.recvN (Queue.sendAll (⟨⟨2, []⟩, 0, [], [], []⟩ : BoxedQueue Nat) [10, 20]).2
          ([10, 20] : List Nat).length).2.q.items = []) :=
  ⟨by decide, boxed_n_sends_n_receives Nat [10, 20] 2 (by decide)⟩

/-- Bit-level characterisation of `GroupStateNotifier::set_bits`: inside the
`[at', at' + num_bits)` window the result carries the low bits of `source`;
outside it carries `destination`'s bits, except that bits at and above 32 are
cleared (the computation is 32-bit). -/
theorem GroupStateNotifier.set_bits_testBit (d s off B : Nat) (hoff : off + B ≤ 32) (i : Nat) :
    (GroupStateNotifier.set_bits d s off B).testBit i =
      if off ≤ i ∧ i < off + B then s.testBit (i - off)
      else (d.testBit i && decide (i < 32)) := by
  unfold GroupStateNotifier.set_bits
  simp only [Nat.testBit_lor, Nat.testBit_land, Nat.testBit_xor, Nat.testBit_shiftLeft,
    Nat.testBit_shiftRight, Nat.testBit_two_pow_sub_one, ge_iff_le]
  by_cases h1 : off ≤ i
  · by_cases h2 : i < off + B
    · have hc : 32 - B + (i - off) < 32 := by omega
      have hi32 : i < 32 := by omega
      simp [h1, h2, hc, hi32]
    · have hc : ¬ 32 - B + (i - off) < 32 := by omega
      simp [h1, h2, hc]
  · simp [h1]

/-- A value below `2 ^ 32` has no bits at positions 32 and above, so masking
its bit at `i` with `i < 32` changes nothing. -/
theorem testBit_and_decide_lt32 (x i : Nat) (hx : x < 2 ^ 32) :
    (x.testBit i && decide (i < 32)) = x.testBit i := by
  by_cases hi : i < 32
  · simp [hi]
  · have : x < 2 ^ i := lt_of_lt_of_le hx (Nat.pow_le_pow_right (by norm_num) (by omega))
    simp [Nat.testBit_lt_two_pow this, hi]

/-- Lemma: `set_bits` keeps a 32-bit destination 32-bit. -/
theorem GroupStateNotifier.set_bits_lt (d s off B : Nat) (hd : d < 2 ^ 32)
    (hoff : off + B ≤ 32) : GroupStateNotifier.set_bits d s off B < 2 ^ 32 := by
  apply Nat.lt_pow_two_of_testBit
  intro i hi
  rw [GroupStateNotifier.set_bits_testBit d s off B hoff i, if_neg (by omega),
    testBit_and_decide_lt32 d i hd]
  exact Nat.testBit_lt_two_pow
    (lt_of_lt_of_le hd (Nat.pow_le_pow_right (by norm_num) (by omega)))

/-- C6: single-group `set(group, value)` of the grouped-state view (with
`value < NUM_STATES`, implemented as read current word / compute replacement
via `set_bits` / write the whole word back) yields a pending word whose bits
in the `ceil(log2(NUM_STATES))`-wide window at offset
`group * ceil(log2(NUM_STATES))` are exactly `value`'s low bits, and whose
bits outside that window are exactly the previous word's bits. -/
theorem group_set_replaces_only_group_bits (NUM_STATES NUM_GROUPS group value : Nat)
    (w : NotifWord) (i : Nat) (_hns : 2 ≤ NUM_STATES) (hg : group < NUM_GROUPS)
    (hbits : Nat.clog 2 NUM_STATES * NUM_GROUPS ≤ 32) (_hv : value < NUM_STATES)
    (hw : w.value < 2 ^ 32) :
    (GroupStateNotifier.set (Nat.clog 2 NUM_STATES) group value w).pending = true ∧
    (GroupStateNotifier.set (Nat.clog 2 NUM_STATES) group value w).value.testBit i =
      if group * Nat.clog 2 NUM_STATES ≤ i ∧
          i < group * Nat.clog 2 NUM_STATES + Nat.clog 2 NUM_STATES then
        value.testBit (i - group * Nat.clog 2 NUM_STATES)
      else w.value.testBit i := by
  have hoff : group * Nat.clog 2 NUM_STATES + Nat.clog 2 NUM_STATES ≤ 32 := by
    have h1 : (group + 1) * Nat.clog 2 NUM_STATES ≤ NUM_GROUPS * Nat.clog 2 NUM_STATES :=
      Nat.mul_le_mul_right _ hg
    calc group * Nat.clog 2 NUM_STATES + Nat.clog 2 NUM_STATES
        = (group + 1) * Nat.clog 2 NUM_STATES := by ring
      _ ≤ NUM_GROUPS * Nat.clog 2 NUM_STATES := h1
      _ = Nat.clog 2 NUM_STATES * NUM_GROUPS := Nat.mul_comm _ _
      _ ≤ 32 := hbits
  have hval : GroupStateNotifier.set (Nat.clog 2 NUM_STATES) group value w =
      ⟨GroupStateNotifier.set_bits w.value value (group * Nat.clog 2 NUM_STATES)
        (Nat.clog 2 NUM_STATES), true⟩ := rfl
  refine ⟨rfl, ?_⟩
  rw [hval]
  rw [GroupStateNotifier.set_bits_testBit _ _ _ _ hoff i]
  by_cases h : group * Nat.clog 2 NUM_STATES ≤ i ∧
      i < group * Nat.clog 2 NUM_STATES + Nat.clog 2 NUM_STATES
  · rw [if_pos h, if_pos h]
  · rw [if_neg h, if_neg h, testBit_and_decide_lt32 _ _ hw]

/-- Bit-level characterisation of the word-building loop of the all-groups
`set`: at offsets below `off` (and above the installed window) the
accumulator's bits survive, and the window `[off, off + B * len)` carries the
consecutive groups' low bits. -/
theorem GroupStateNotifier.pack_testBit (B : Nat) (hB : 0 < B) :
    ∀ (states : List Nat) (off acc : Nat),
      (∀ s ∈ states, s < 2 ^ B) → off + B * states.length ≤ 32 → acc < 2 ^ 32 →
      ∀ i, (GroupStateNotifier.pack B states off acc).testBit i =
        if off ≤ i ∧ i < off + B * states.length then
          (states.getD ((i - off) / B) 0).testBit ((i - off) % B)
        else acc.testBit i := by
  intro states
  induction states with
  | nil =>
    intro off acc _ _ _ i
    have hc : ¬ (off ≤ i ∧ i < off + B * ([] : List Nat).length) := by
      simp only [List.length_nil, Nat.mul_zero, Nat.add_zero]
      omega
    rw [if_neg hc]
    rfl
  | cons s rest ih =>
    intro off acc hs hle hacc i
    have hmul : B * (s :: rest).length = B * rest.length + B := by
      simp [List.length_cons, Nat.mul_succ]
    rw [hmul] at hle
    have hacc' : GroupStateNotifier.set_bits acc s off B < 2 ^ 32 :=
      GroupStateNotifier.set_bits_lt acc s off B hacc (by omega)
    have hrest : ∀ t ∈ rest, t < 2 ^ B := fun t ht => hs t (List.mem_cons_of_mem _ ht)
    have hihs := ih (off + B) (GroupStateNotifier.set_bits acc s off B) hrest (by omega)
      hacc' i
    show (GroupStateNotifier.pack B rest (off + B)
      (GroupStateNotifier.set_bits acc s off B)).testBit i = _
    rw [hihs, hmul]
    by_cases h1 : off ≤ i
    · by_cases h2 : i < off + B
      · rw [if_neg (by omega), GroupStateNotifier.set_bits_testBit _ _ _ _ (by omega) i,
          if_pos ⟨h1, h2⟩, if_pos ⟨h1, by omega⟩,
          Nat.div_eq_of_lt (by omega), Nat.mod_eq_of_lt (by omega)]
        rfl
      · by_cases h3 : i < off + (B * rest.length + B)
        · rw [if_pos ⟨by omega, by omega⟩, if_pos ⟨h1, h3⟩]
          obtain ⟨q, r, hr, hi'⟩ : ∃ q r, r < B ∧ i - off = B * (q + 1) + r := by
            refine ⟨(i - off) / B - 1, (i - off) % B, Nat.mod_lt _ hB, ?_⟩
            have hdm := Nat.div_add_mod (i - off) B
            have hq1 : 1 ≤ (i - off) / B := by
              rw [Nat.le_div_iff_mul_le hB]
              omega
            rw [Nat.sub_add_cancel hq1]
            omega
          have hexp : B * (q + 1) = B * q + B := by ring
          rw [hexp] at hi'
          have e1 : i - (off + B) = B * q + r := by omega
          have e2 : (i - (off + B)) / B = q := by
            rw [e1, Nat.mul_add_div hB, Nat.div_eq_of_lt hr, Nat.add_zero]
          have e3 : (i - (off + B)) % B = r := by
            rw [e1, Nat.mul_add_mod, Nat.mod_eq_of_lt hr]
          have e4 : (i - off) / B = q + 1 := by
            rw [hi', show B * q + B + r = B * (q + 1) + r by ring, Nat.mul_add_div hB,
              Nat.div_eq_of_lt hr, Nat.add_zero]
          have e5 : (i - off) % B = r := by
            rw [hi', show B * q + B + r = B * (q + 1) + r by ring, Nat.mul_add_mod,
              Nat.mod_eq_of_lt hr]
          rw [e2, e3, e4, e5, List.getD_cons_succ]
        · rw [if_neg (by omega), if_neg (by omega),
            GroupStateNotifier.set_bits_testBit _ _ _ _ (by omega) i, if_neg (by omega),
            testBit_and_decide_lt32 _ _ hacc]
    · rw [if_neg (by omega), if_neg (by omega),
        GroupStateNotifier.set_bits_testBit _ _ _ _ (by omega) i, if_neg (by omega),
        testBit_and_decide_lt32 _ _ hacc]

/-- Computation `ceil(log2(4)) = 2`, used to instantiate the grouped-state theorems. -/
theorem clog_two_four : Nat.clog 2 4 = 2 := by
  have h := Nat.clog_pow 2 2 (by norm_num)
  norm_num at h
  exact h

/-- C7: the grouped-state bit packing and unpacking are mutually inverse pure
functions on 32-bit words: for every list of `NUM_GROUPS` values each below
`NUM_STATES`, packing them with the all-groups `set` form and decoding the
resulting word with `raw_value_to_state_list` yields back exactly the
original values. -/
theorem grouped_pack_unpack_roundtrip (NUM_STATES NUM_GROUPS : Nat) (states : List Nat)
    (hns : 2 ≤ NUM_STATES) (hlen : states.length = NUM_GROUPS)
    (hbits : Nat.clog 2 NUM_STATES * NUM_GROUPS ≤ 32)
    (hstates : ∀ s ∈ states, s < NUM_STATES) :
    GroupStateNotifier.raw_value_to_state_list (Nat.clog 2 NUM_STATES) NUM_GROUPS
      (GroupStateNotifier.set_all (Nat.clog 2 NUM_STATES) states ⟨0, false⟩).value =
      states := by
  subst hlen
  have hBpos : 0 < Nat.clog 2 NUM_STATES := Nat.clog_pos one_lt_two hns
  have hpow : NUM_STATES ≤ 2 ^ Nat.clog 2 NUM_STATES := Nat.le_pow_clog one_lt_two _
  have hs2 : ∀ s ∈ states, s < 2 ^ Nat.clog 2 NUM_STATES :=
    fun s hs => lt_of_lt_of_le (hstates s hs) hpow
  have hble : 0 + Nat.clog 2 NUM_STATES * states.length ≤ 32 := by
    omega
  have hval : (GroupStateNotifier.set_all (Nat.clog 2 NUM_STATES) states ⟨0, false⟩).value =
      GroupStateNotifier.pack (Nat.clog 2 NUM_STATES) states 0 0 := rfl
  rw [hval]
  unfold GroupStateNotifier.raw_value_to_state_list
  apply List.ext_getElem
  · simp
  · intro i h1 h2
    simp only [List.getElem_map, List.getElem_range, List.length_map, List.length_range] at *
    rw [Nat.one_shiftLeft]
    apply Nat.eq_of_testBit_eq
    intro k
    rw [Nat.testBit_land, Nat.testBit_shiftRight, Nat.testBit_two_pow_sub_one]
    by_cases hk : k < Nat.clog 2 NUM_STATES
    · have hidx : i * Nat.clog 2 NUM_STATES + k <
          0 + Nat.clog 2 NUM_STATES * states.length := by
        have hstep : (i + 1) * Nat.clog 2 NUM_STATES ≤
            states.length * Nat.clog 2 NUM_STATES :=
          Nat.mul_le_mul_right _ (by omega)
        have hexp : (i + 1) * Nat.clog 2 NUM_STATES =
            i * Nat.clog 2 NUM_STATES + Nat.clog 2 NUM_STATES := by ring
        have hcomm : states.length * Nat.clog 2 NUM_STATES =
            Nat.clog 2 NUM_STATES * states.length := by ring
        omega
      rw [GroupStateNotifier.pack_testBit (Nat.clog 2 NUM_STATES) hBpos states 0 0 hs2 hble
        (by norm_num) (i * Nat.clog 2 NUM_STATES + k), if_pos ⟨Nat.zero_le _, hidx⟩]
      rw [show i * Nat.clog 2 NUM_STATES + k - 0 =
        Nat.clog 2 NUM_STATES * i + k from by rw [Nat.sub_zero, Nat.mul_comm]]
      rw [Nat.mul_add_div hBpos, Nat.div_eq_of_lt hk, Nat.add_zero, Nat.mul_add_mod,
        Nat.mod_eq_of_lt hk]
      rw [List.getD_eq_getElem?_getD, List.getElem?_eq_getElem h2]
      simp [hk]
    · have hsi : states[i] < 2 ^ k :=
        lt_of_lt_of_le (lt_of_lt_of_le (hstates _ (List.getElem_mem h2)) hpow)
          (Nat.pow_le_pow_right (by norm_num) (by omega))
      simp [hk, Nat.testBit_lt_two_pow hsi]

/-- Witness for `group_set_replaces_only_group_bits`: four states in three
groups, writing state 2 into group 1 of the word 43, observed at bit 3. -/
theorem group_set_replaces_only_group_bits_witness :
    2 ≤ 4 ∧ 1 < 3 ∧ Nat.clog 2 4 * 3 ≤ 32 ∧ 2 < 4 ∧
    (⟨43, false⟩ : NotifWord).value < 2 ^ 32 ∧
    ((GroupStateNotifier.set (Nat.clog 2 4) 1 2 ⟨43, false⟩).pending = true ∧
      (GroupStateNotifier.set (Nat.clog 2 4) 1 2 ⟨43, false⟩).value.testBit 3 =
        if 1 * Nat.clog 2 4 ≤ 3 ∧ 3 < 1 * Nat.clog 2 4 + Nat.clog 2 4 then
          Nat.testBit 2 (3 - 1 * Nat.clog 2 4)
        else (⟨43, false⟩ : NotifWord).value.testBit 3) :=
  ⟨by decide, by decide, by rw [clog_two_four]; decide, by decide, by decide,
    group_set_replaces_only_group_bits 4 3 1 2 ⟨43, false⟩ 3 (by decide) (by decide)
      (by rw [clog_two_four]; decide) (by decide) (by decide)⟩

/-- Witness for `grouped_pack_unpack_roundtrip`: the three group values
`[2, 0, 3]` below `NUM_STATES = 4` survive a pack/unpack round trip. -/
theorem grouped_pack_unpack_roundtrip_witness :
    2 ≤ 4 ∧ ([2, 0, 3] : List Nat).length = 3 ∧ Nat.clog 2 4 * 3 ≤ 32 ∧
    (∀ s ∈ ([2, 0, 3] : List Nat), s < 4) ∧
    GroupStateNotifier.raw_value_to_state_list (Nat.clog 2 4) 3
      (GroupStateNotifier.set_all (Nat.clog 2 4) [2, 0, 3] ⟨0, false⟩).value = [2, 0, 3] :=
  ⟨by decide, by decide, by rw [clog_two_four]; decide, by decide,
    grouped_pack_unpack_roundtrip 4 3 [2, 0, 3] (by decide) (by decide)
      (by rw [clog_two_four]; decide) (by decide)⟩
